import Mathlib

/-
Verification of the physics core of the Shapes2 repository.

The real-valued model below is a shallow embedding of the geometry and
physics code (`src/utils/math.ts` together with the canvas component that
hosts `updatePhysics`, and the legacy canvas variant).  Numbers are modelled
as real numbers.  A second, small model (`JSNum`) captures the IEEE-style
special values (NaN and the infinities) of the host language for the claims
that are specifically about non-finite values; on the exact-valued execution
paths used in those claims the model agrees with IEEE double arithmetic.
-/

set_option maxHeartbeats 1000000

open scoped Classical

namespace Shapes

noncomputable section

/-- Pair of real coordinates, the `Vector2` record of the source. -/
@[ext] structure Vector2 where
  x : ℝ
  y : ℝ

instance : Inhabited Vector2 := ⟨⟨0, 0⟩⟩

/-- `add` of `src/utils/math.ts`. -/
def add (v1 v2 : Vector2) : Vector2 := ⟨v1.x + v2.x, v1.y + v2.y⟩

/-- `sub` of `src/utils/math.ts`. -/
def sub (v1 v2 : Vector2) : Vector2 := ⟨v1.x - v2.x, v1.y - v2.y⟩

/-- `mult` of `src/utils/math.ts` (scalar multiple). -/
def mult (v : Vector2) (s : ℝ) : Vector2 := ⟨v.x * s, v.y * s⟩

/-- `dot` of `src/utils/math.ts`. -/
def dot (v1 v2 : Vector2) : ℝ := v1.x * v2.x + v1.y * v2.y

/-- `mag` of `src/utils/math.ts`: `Math.sqrt(v.x*v.x + v.y*v.y)`. -/
def mag (v : Vector2) : ℝ := Real.sqrt (v.x * v.x + v.y * v.y)

/-- `normalize` of `src/utils/math.ts`: guarded by the `m === 0` test. -/
def normalize (v : Vector2) : Vector2 :=
  if mag v = 0 then ⟨0, 0⟩ else ⟨v.x / mag v, v.y / mag v⟩

/-- `rotatePoint` of `src/utils/math.ts`. -/
def rotatePoint (point center : Vector2) (angle : ℝ) : Vector2 :=
  ⟨center.x + ((point.x - center.x) * Real.cos angle - (point.y - center.y) * Real.sin angle),
   center.y + ((point.x - center.x) * Real.sin angle + (point.y - center.y) * Real.cos angle)⟩

/-- `generatePolygon` of `src/utils/math.ts`. -/
def generatePolygon (sides : ℕ) (radius : ℝ) (center : Vector2) (rotation : ℝ) : List Vector2 :=
  (List.range sides).map fun i : ℕ =>
    ⟨center.x + radius * Real.cos (((i : ℝ) * 2 * Real.pi) / (sides : ℝ) + rotation),
     center.y + radius * Real.sin (((i : ℝ) * 2 * Real.pi) / (sides : ℝ) + rotation)⟩

/-- `generateStar` of `src/utils/math.ts`. -/
def generateStar (points : ℕ) (outerRadius innerRadius : ℝ) (center : Vector2)
    (rotation : ℝ) : List Vector2 :=
  (List.range (points * 2)).map fun i : ℕ =>
    ⟨center.x + (if i % 2 = 0 then outerRadius else innerRadius) *
        Real.cos (((i : ℝ) * Real.pi) / (points : ℝ) + rotation),
     center.y + (if i % 2 = 0 then outerRadius else innerRadius) *
        Real.sin (((i : ℝ) * Real.pi) / (points : ℝ) + rotation)⟩

/-- The result record of `distPointToSegment`. -/
@[ext] structure SegResult where
  dist : ℝ
  normal : Vector2
  closest : Vector2

/-- The closest point on segment `a b` to `p`: `add(a, mult(ab, d))` with the
projection parameter clamped to `[0, 1]`, exactly as computed inside
`distPointToSegment`. -/
def closestPoint (p a b : Vector2) : Vector2 :=
  add a (mult (sub b a)
    (max 0 (min 1 (dot (sub p a) (sub b a) / dot (sub b a) (sub b a)))))

/-- `distPointToSegment` of `src/utils/math.ts`: clamped projection on the
segment, distance, and the normal pointing from the closest wall point to the
ball, with the perpendicular fallback when the distance is zero. -/
def distPointToSegment (p a b : Vector2) : SegResult :=
  { dist := mag (sub p (closestPoint p a b))
    normal :=
      if mag (sub p (closestPoint p a b)) = 0 then
        normalize ⟨-(sub b a).y, (sub b a).x⟩
      else
        normalize (sub p (closestPoint p a b))
    closest := closestPoint p a b }

/-- `generateShape` of `src/utils/math.ts`.  `vertexCount || 4` (resp. `|| 5`)
is modelled by the zero test, matching the falsy semantics on naturals. -/
def generateShape (type : String) (vertexCount : ℕ) (radius : ℝ) (center : Vector2)
    (rotation : ℝ) : List Vector2 :=
  if type ∈ ["triangle", "square", "pentagon", "hexagon", "octagon"] then
    generatePolygon (if vertexCount = 0 then 4 else vertexCount) radius center rotation
  else if type = "star" then
    generateStar (if vertexCount = 0 then 5 else vertexCount) radius (radius * 0.45)
      center rotation
  else if type = "house" then
    ([⟨0, -1⟩, ⟨0.8, -0.4⟩, ⟨0.8, 1⟩, ⟨-0.8, 1⟩, ⟨-0.8, -0.4⟩] : List Vector2).map
      fun p => rotatePoint (mult p radius) center rotation
  else if type = "skull" then
    ([⟨0, -1⟩, ⟨0.7, -0.7⟩, ⟨0.9, 0⟩, ⟨0.5, 0.5⟩, ⟨0.3, 1⟩, ⟨-0.3, 1⟩, ⟨-0.5, 0.5⟩,
      ⟨-0.9, 0⟩, ⟨-0.7, -0.7⟩] : List Vector2).map
      fun p => rotatePoint (mult p radius) center rotation
  else if type = "candy_cane" then
    ([⟨-0.5, -1⟩, ⟨0.5, -1⟩, ⟨0.5, 1⟩, ⟨-0.2, 1⟩, ⟨-0.2, -0.4⟩, ⟨-0.5, -0.4⟩] :
        List Vector2).map
      fun p => rotatePoint (mult p radius) center rotation
  else if type = "tree" then
    ([⟨0, -1⟩, ⟨0.4, -0.4⟩, ⟨0.2, -0.4⟩, ⟨0.6, 0.2⟩, ⟨0.3, 0.2⟩, ⟨0.7, 1⟩, ⟨-0.7, 1⟩,
      ⟨-0.3, 0.2⟩, ⟨-0.6, 0.2⟩, ⟨-0.2, -0.4⟩, ⟨-0.4, -0.4⟩] : List Vector2).map
      fun p => rotatePoint (mult p radius) center rotation
  else if type = "ghost" then
    ([⟨0, -1⟩, ⟨0.8, -0.5⟩, ⟨0.8, 1⟩, ⟨0.4, 0.8⟩, ⟨0, 1⟩, ⟨-0.4, 0.8⟩, ⟨-0.8, 1⟩,
      ⟨-0.8, -0.5⟩] : List Vector2).map
      fun p => rotatePoint (mult p radius) center rotation
  else if type = "pumpkin" then
    ([⟨0, -0.9⟩, ⟨0.1, -1.1⟩, ⟨-0.1, -1.1⟩, ⟨0, -0.9⟩, ⟨-0.6, -0.8⟩, ⟨-0.9, -0.3⟩,
      ⟨-0.95, 0.3⟩, ⟨-0.5, 0.9⟩, ⟨0.5, 0.9⟩, ⟨0.95, 0.3⟩, ⟨0.9, -0.3⟩, ⟨0.6, -0.8⟩] :
        List Vector2).map
      fun p => rotatePoint (mult p radius) center rotation
  else
    generatePolygon 4 radius center rotation

/-- A particle: position, velocity and radius (`Ball`, physics fields only). -/
@[ext] structure Ball where
  pos : Vector2
  vel : Vector2
  radius : ℝ

instance : Inhabited Ball := ⟨⟨⟨0, 0⟩, ⟨0, 0⟩, 0⟩⟩

/-- The four global multipliers, in the order of their declaration in `App.tsx`. -/
structure GlobalSettings where
  timeScale : ℝ
  gravityMultiplier : ℝ
  rotationMultiplier : ℝ
  bouncinessMultiplier : ℝ

/-- The physics-relevant fields of `SimulationConfig`. -/
structure SimulationConfig where
  shapeType : String
  vertexCount : ℕ
  gravity : ℝ
  friction : ℝ
  restitution : ℝ
  rotationSpeed : ℝ

/-- Per-instance simulation state: particle list and rotation accumulator. -/
@[ext] structure SimState where
  balls : List Ball
  rotation : ℝ

/-- The per-tick velocity decay factor `1 - (config.friction || 0.001) * timeScale`
from the integrator step of `updatePhysics` (`friction || 0.001` modelled by the
zero test, matching the falsy semantics). -/
def frictionFactor (friction timeScale : ℝ) : ℝ :=
  1 - (if friction = 0 then 0.001 else friction) * timeScale

/-- The integration step of `updatePhysics` for one ball: gravity on `vel.y`,
multiplicative friction decay, then `pos += vel * timeScale`. -/
def integrate (cfg : SimulationConfig) (gs : GlobalSettings) (ball : Ball) : Ball :=
  { pos := add ball.pos
      (mult (mult ⟨ball.vel.x, ball.vel.y + cfg.gravity * gs.gravityMultiplier * gs.timeScale⟩
        (frictionFactor cfg.friction gs.timeScale)) gs.timeScale)
    vel := mult ⟨ball.vel.x, ball.vel.y + cfg.gravity * gs.gravityMultiplier * gs.timeScale⟩
      (frictionFactor cfg.friction gs.timeScale)
    radius := ball.radius }

/-- The edge list walked by the wall-collision loop: consecutive vertex pairs
`(vertices[i], vertices[(i+1) % n])`. -/
def edges (vs : List Vector2) : List (Vector2 × Vector2) :=
  (List.range vs.length).map fun i =>
    (vs.getD i ⟨0, 0⟩, vs.getD ((i + 1) % vs.length) ⟨0, 0⟩)

/-- The body of the wall-collision loop of `updatePhysics` for a single edge:
push out along the normal by the penetration, and reflect (with restitution and
the fixed `0.1` outward nudge) only when the ball moves towards the wall. -/
def resolveEdge (restitution : ℝ) (p1 p2 : Vector2) (ball : Ball) : Ball :=
  let r := distPointToSegment ball.pos p1 p2
  if r.dist < ball.radius then
    let pos1 := add ball.pos (mult r.normal (ball.radius - r.dist))
    let velDotNormal := dot ball.vel r.normal
    if velDotNormal < 0 then
      { pos := pos1
        vel := add
          (mult (sub ball.vel (mult (mult r.normal (2 * velDotNormal)) 1)) restitution)
          (mult r.normal 0.1)
        radius := ball.radius }
    else
      { pos := pos1, vel := ball.vel, radius := ball.radius }
  else ball

/-- The full wall-collision loop of `updatePhysics` for one ball. -/
def boundaryPhase (restitution : ℝ) (vs : List Vector2) (ball : Ball) : Ball :=
  (edges vs).foldl (fun b e => resolveEdge restitution e.1 e.2 b) ball

/-- The collision normal of the ball-to-ball loop: `normalize(posB - posA)`,
or `(1, 0)` when the centers coincide. -/
def pairNormal (ballA ballB : Ball) : Vector2 :=
  if mag (sub ballB.pos ballA.pos) = 0 then ⟨1, 0⟩ else normalize (sub ballB.pos ballA.pos)

/-- The body of the ball-to-ball loop of `updatePhysics` for one pair:
positional correction by half the overlap each, then, when the pair approaches,
the swap of the normal velocity components. -/
def resolvePair (ballA ballB : Ball) : Ball × Ball :=
  let distVec := sub ballB.pos ballA.pos
  let distance := mag distVec
  let totalRadius := ballA.radius + ballB.radius
  if distance < totalRadius then
    let overlap := totalRadius - distance
    let correctionNormal := pairNormal ballA ballB
    let posA := add ballA.pos (mult correctionNormal (-overlap / 2))
    let posB := add ballB.pos (mult correctionNormal (overlap / 2))
    if dot (sub ballB.vel ballA.vel) correctionNormal < 0 then
      let v1n := dot ballA.vel correctionNormal
      let v2n := dot ballB.vel correctionNormal
      (⟨posA, add (sub ballA.vel (mult correctionNormal v1n)) (mult correctionNormal v2n),
          ballA.radius⟩,
       ⟨posB, add (sub ballB.vel (mult correctionNormal v2n)) (mult correctionNormal v1n),
          ballB.radius⟩)
    else
      (⟨posA, ballA.vel, ballA.radius⟩, ⟨posB, ballB.vel, ballB.radius⟩)
  else (ballA, ballB)

/-- The index pairs `(i, j)`, `i < j`, in the order visited by the nested
ball-to-ball loops. -/
def pairIndices (n : ℕ) : List (ℕ × ℕ) :=
  (List.range n).flatMap fun i =>
    (List.range n).filterMap fun j => if i < j then some (i, j) else none

/-- The ball-to-ball phase of `updatePhysics`: the nested loops mutate the ball
array in place; this is modelled by folding the pair resolution over the index
pairs, reading and writing the current list. -/
def pairPhase (balls : List Ball) : List Ball :=
  (pairIndices balls.length).foldl
    (fun bs ij =>
      let r := resolvePair (bs.getD ij.1 default) (bs.getD ij.2 default)
      (bs.set ij.1 r.1).set ij.2 r.2)
    balls

/-- The safety bounds reset at the end of `updatePhysics`: a ball farther than
`shapeRadius + 200` from the origin is teleported to the origin with zero
velocity. -/
def safetyReset (shapeRadius : ℝ) (ball : Ball) : Ball :=
  if mag ball.pos > shapeRadius + 200 then ⟨⟨0, 0⟩, ⟨0, 0⟩, ball.radius⟩ else ball

/-- One tick of `updatePhysics` (canonical canvas in `src/utils/math.ts`):
advance the rotation, regenerate the boundary, integrate and resolve wall
collisions per ball, resolve ball-to-ball collisions, then apply the safety
bounds reset.  `shapeRadius = min(width, height) * 0.45`. -/
def updatePhysics (cfg : SimulationConfig) (gs : GlobalSettings) (width height : ℝ)
    (st : SimState) : SimState :=
  let shapeRadius := min width height * 0.45
  let rotation1 := st.rotation +
    (if cfg.rotationSpeed = 0 then 0.005 else cfg.rotationSpeed) *
      gs.rotationMultiplier * gs.timeScale
  let localVertices := generateShape cfg.shapeType cfg.vertexCount shapeRadius ⟨0, 0⟩ rotation1
  let restitution := cfg.restitution * gs.bouncinessMultiplier
  let balls1 := st.balls.map fun b => boundaryPhase restitution localVertices (integrate cfg gs b)
  let balls2 := pairPhase balls1
  { balls := balls2.map (safetyReset shapeRadius), rotation := rotation1 }

/-- The boundary vertex generation of the legacy canvas variant
(`src/unnamed/part_000`, inside its `updatePhysics`): a star uses inner radius
`shapeRadius * 0.4`, every other shape a regular polygon. -/
def legacyLocalVertices (shapeType : String) (vertexCount : ℕ) (shapeRadius rotation : ℝ) :
    List Vector2 :=
  if shapeType = "star" then
    generateStar (if vertexCount = 0 then 5 else vertexCount) shapeRadius
      (shapeRadius * 0.4) ⟨0, 0⟩ rotation
  else
    generatePolygon (if vertexCount = 0 then 4 else vertexCount) shapeRadius ⟨0, 0⟩ rotation

/-- IEEE-style number of the host language: a finite real, a signed infinity
(`true` is `+∞`), or NaN.  Used for the claims about non-finite values; on the
exact-valued paths exercised below it agrees with IEEE double arithmetic. -/
inductive JSNum where
  | fin : ℝ → JSNum
  | inf : Bool → JSNum
  | nan : JSNum

/-- IEEE negation. -/
def jsNeg : JSNum → JSNum
  | .nan => .nan
  | .fin a => .fin (-a)
  | .inf s => .inf (!s)

/-- IEEE addition (overflow ignored). -/
def jsAdd : JSNum → JSNum → JSNum
  | .nan, _ => .nan
  | _, .nan => .nan
  | .fin a, .fin b => .fin (a + b)
  | .fin _, .inf s => .inf s
  | .inf s, .fin _ => .inf s
  | .inf s, .inf t => if s = t then .inf s else .nan

/-- IEEE subtraction. -/
def jsSub (a b : JSNum) : JSNum := jsAdd a (jsNeg b)

/-- IEEE multiplication (overflow ignored): `0 * ∞ = NaN`. -/
def jsMul : JSNum → JSNum → JSNum
  | .nan, _ => .nan
  | _, .nan => .nan
  | .fin a, .fin b => .fin (a * b)
  | .fin a, .inf s => if a = 0 then .nan else if 0 < a then .inf s else .inf (!s)
  | .inf s, .fin a => if a = 0 then .nan else if 0 < a then .inf s else .inf (!s)
  | .inf s, .inf t => .inf (s == t)

/-- IEEE division: `0 / 0 = NaN`, `a / 0 = ±∞` for `a ≠ 0`, `a / ∞ = 0`. -/
def jsDiv : JSNum → JSNum → JSNum
  | .nan, _ => .nan
  | _, .nan => .nan
  | .fin a, .fin b =>
      if b = 0 then (if a = 0 then .nan else if 0 < a then .inf true else .inf false)
      else .fin (a / b)
  | .fin _, .inf _ => .fin 0
  | .inf s, .fin b => if 0 ≤ b then .inf s else .inf (!s)
  | .inf _, .inf _ => .nan

/-- IEEE square root: NaN on NaN and on negative inputs. -/
def jsSqrt : JSNum → JSNum
  | .nan => .nan
  | .fin a => if a < 0 then .nan else .fin (Real.sqrt a)
  | .inf s => if s then .inf true else .nan

/-- IEEE strict order: any comparison with NaN is false. -/
def jsLt : JSNum → JSNum → Prop
  | .nan, _ => False
  | _, .nan => False
  | .fin a, .fin b => a < b
  | .fin _, .inf s => s = true
  | .inf s, .fin _ => s = false
  | .inf s, .inf t => s = false ∧ t = true

/-- IEEE `>`: `a > b` is `b < a`. -/
def jsGt (a b : JSNum) : Prop := jsLt b a

/-- IEEE `===`: NaN is equal to nothing. -/
def jsEqNum : JSNum → JSNum → Prop
  | .nan, _ => False
  | _, .nan => False
  | .fin a, .fin b => a = b
  | .inf s, .inf t => s = t
  | .fin _, .inf _ => False
  | .inf _, .fin _ => False

/-- `Math.min`: NaN when either argument is NaN. -/
def jsMin : JSNum → JSNum → JSNum
  | .nan, _ => .nan
  | _, .nan => .nan
  | .fin a, .fin b => .fin (min a b)
  | .inf false, .fin _ => .inf false
  | .inf false, .inf _ => .inf false
  | .fin _, .inf false => .inf false
  | .inf true, .fin b => .fin b
  | .fin a, .inf true => .fin a
  | .inf true, .inf t => .inf t

/-- `Math.max`: NaN when either argument is NaN. -/
def jsMax : JSNum → JSNum → JSNum
  | .nan, _ => .nan
  | _, .nan => .nan
  | .fin a, .fin b => .fin (max a b)
  | .inf true, .fin _ => .inf true
  | .inf true, .inf _ => .inf true
  | .fin _, .inf true => .inf true
  | .inf false, .fin b => .fin b
  | .fin a, .inf false => .fin a
  | .inf false, .inf t => .inf t

/-- Vector over IEEE-style numbers. -/
structure JSVec where
  x : JSNum
  y : JSNum

/-- `add` in IEEE semantics. -/
def jsVAdd (v1 v2 : JSVec) : JSVec := ⟨jsAdd v1.x v2.x, jsAdd v1.y v2.y⟩

/-- `sub` in IEEE semantics. -/
def jsVSub (v1 v2 : JSVec) : JSVec := ⟨jsSub v1.x v2.x, jsSub v1.y v2.y⟩

/-- `mult` in IEEE semantics. -/
def jsVMult (v : JSVec) (s : JSNum) : JSVec := ⟨jsMul v.x s, jsMul v.y s⟩

/-- `dot` in IEEE semantics. -/
def jsVDot (v1 v2 : JSVec) : JSNum := jsAdd (jsMul v1.x v2.x) (jsMul v1.y v2.y)

/-- `mag` in IEEE semantics. -/
def jsVMag (v : JSVec) : JSNum := jsSqrt (jsAdd (jsMul v.x v.x) (jsMul v.y v.y))

/-- `normalize` in IEEE semantics (the `m === 0` guard of the source). -/
def jsNormalize (v : JSVec) : JSVec :=
  if jsEqNum (jsVMag v) (.fin 0) then ⟨.fin 0, .fin 0⟩
  else ⟨jsDiv v.x (jsVMag v), jsDiv v.y (jsVMag v)⟩

/-- The result record of `distPointToSegment` in IEEE semantics. -/
structure JSSegResult where
  dist : JSNum
  normal : JSVec
  closest : JSVec

/-- `distPointToSegment` in IEEE semantics, following the source line by line:
`d = max(0, min(1, proj / abLenSq))`, then closest point, distance, normal with
the `distance === 0` fallback. -/
def jsDistPointToSegment (p a b : JSVec) : JSSegResult :=
  let ab := jsVSub b a
  let ap := jsVSub p a
  let proj := jsVDot ap ab
  let abLenSq := jsVDot ab ab
  let d := jsMax (.fin 0) (jsMin (.fin 1) (jsDiv proj abLenSq))
  let closest := jsVAdd a (jsVMult ab d)
  let distVec := jsVSub p closest
  let distance := jsVMag distVec
  { dist := distance
    normal :=
      if jsEqNum distance (.fin 0) then jsNormalize ⟨jsNeg ab.y, ab.x⟩
      else jsNormalize distVec
    closest := closest }

/-- The safety bounds reset in IEEE semantics:
`if (mag(ball.pos) > shapeRadius + 200) { pos = 0; vel = 0 }`. -/
def jsSafetyReset (shapeRadius : JSNum) (pos vel : JSVec) : JSVec × JSVec :=
  if jsGt (jsVMag pos) (jsAdd shapeRadius (.fin 200)) then
    (⟨.fin 0, .fin 0⟩, ⟨.fin 0, .fin 0⟩)
  else (pos, vel)

end

theorem mag_eq_of_sq (v : Vector2) (c : ℝ) (hc : 0 ≤ c)
    (h : v.x * v.x + v.y * v.y = c * c) : mag v = c := by
  rw [mag, h, Real.sqrt_mul_self hc]

theorem not_mag_lt (v : Vector2) (r : ℝ) (hr : 0 ≤ r)
    (h : r * r ≤ v.x * v.x + v.y * v.y) : ¬ mag v < r := by
  have h1 : Real.sqrt (r * r) ≤ mag v := Real.sqrt_le_sqrt h
  rw [Real.sqrt_mul_self hr] at h1
  exact not_lt.mpr h1

theorem dot_normalize_self (v : Vector2) (h : mag v ≠ 0) :
    dot (normalize v) (normalize v) = 1 := by
  have hnn : (0 : ℝ) ≤ v.x * v.x + v.y * v.y :=
    add_nonneg (mul_self_nonneg _) (mul_self_nonneg _)
  have hm : mag v * mag v = v.x * v.x + v.y * v.y := Real.mul_self_sqrt hnn
  have hs : v.x * v.x + v.y * v.y ≠ 0 := by
    intro h0
    exact h (by rw [mag, h0, Real.sqrt_zero])
  rw [normalize, if_neg h]
  show v.x / mag v * (v.x / mag v) + v.y / mag v * (v.y / mag v) = 1
  have hrw : v.x / mag v * (v.x / mag v) + v.y / mag v * (v.y / mag v)
      = (v.x * v.x + v.y * v.y) / (mag v * mag v) := by ring
  rw [hrw, hm, div_self hs]

theorem pairNormal_unit (A B : Ball) : dot (pairNormal A B) (pairNormal A B) = 1 := by
  by_cases h : mag (sub B.pos A.pos) = 0
  · rw [pairNormal, if_pos h]
    simp [dot]
  · rw [pairNormal, if_neg h]
    exact dot_normalize_self _ h

/-- Claim C2: a particle whose distance from the simulation-local origin exceeds
`shapeRadius + 200` is reset by the safety pass to the origin with zero
velocity, regardless of its velocity; a particle within the threshold is left
untouched; and `updatePhysics` applies exactly this pass to the ball list
produced by the two collision phases. -/
theorem runaway_recovery (shapeRadius : ℝ) (b : Ball) :
    (mag b.pos > shapeRadius + 200 →
      safetyReset shapeRadius b = ⟨⟨0, 0⟩, ⟨0, 0⟩, b.radius⟩)
    ∧ (¬ mag b.pos > shapeRadius + 200 → safetyReset shapeRadius b = b)
    ∧ ∀ cfg gs w h st, (updatePhysics cfg gs w h st).balls =
        (pairPhase (st.balls.map fun bb =>
          boundaryPhase (cfg.restitution * gs.bouncinessMultiplier)
            (generateShape cfg.shapeType cfg.vertexCount (min w h * 0.45) ⟨0, 0⟩
              (st.rotation + (if cfg.rotationSpeed = 0 then 0.005 else cfg.rotationSpeed) *
                gs.rotationMultiplier * gs.timeScale))
            (integrate cfg gs bb))).map (safetyReset (min w h * 0.45)) := by
  refine ⟨fun h => by rw [safetyReset, if_pos h],
          fun h => by rw [safetyReset, if_neg h], ?_⟩
  intro cfg gs w h st
  rfl

theorem runaway_recovery_witness :
    mag (⟨700, 0⟩ : Vector2) > 450 + 200 ∧
    safetyReset 450 ⟨⟨700, 0⟩, ⟨5, -5⟩, 3⟩ = ⟨⟨0, 0⟩, ⟨0, 0⟩, 3⟩ := by
  have hm : mag (⟨700, 0⟩ : Vector2) = 700 :=
    mag_eq_of_sq _ 700 (by norm_num) (by norm_num)
  have hgt : mag (⟨700, 0⟩ : Vector2) > 450 + 200 := by rw [hm]; norm_num
  exact ⟨hgt, (runaway_recovery 450 ⟨⟨700, 0⟩, ⟨5, -5⟩, 3⟩).1 hgt⟩

/-- Claim C4 (code bug): the per-tick decay factor
`1 - (config.friction || 0.001) * timeScale` is NOT clamped: at
`friction = 2`, `timeScale = 1` it is `-1 < 0`, and the integrator multiplies
the velocity by it, reversing the velocity. -/
theorem friction_factor_unclamped :
    frictionFactor 2 1 = -1 ∧ frictionFactor 2 1 < 0 ∧
    (integrate ⟨"square", 4, 0, 2, 0.8, 0.01⟩ ⟨1, 1, 1, 1⟩ ⟨⟨0, 0⟩, ⟨3, 0⟩, 5⟩).vel
      = ⟨-3, 0⟩ := by
  have h : frictionFactor 2 1 = -1 := by
    rw [frictionFactor, if_neg (by norm_num : (2 : ℝ) ≠ 0)]
    norm_num
  refine ⟨h, by rw [h]; norm_num, ?_⟩
  show mult ⟨3, 0 + 0 * 1 * 1⟩ (frictionFactor 2 1) = ⟨-3, 0⟩
  rw [h]
  simp [mult]

/-- Claim C10: the normal-component swap of the ball-to-ball response conserves
the vector sum of the two velocities (equal-mass momentum conservation). -/
theorem pair_collision_conserves_momentum (A B : Ball)
    (hover : mag (sub B.pos A.pos) < A.radius + B.radius)
    (happ : dot (sub B.vel A.vel) (pairNormal A B) < 0) :
    add (resolvePair A B).1.vel (resolvePair A B).2.vel = add A.vel B.vel := by
  simp only [resolvePair]
  rw [if_pos hover, if_pos happ]
  ext
  · simp [add, sub, mult]
    ring
  · simp [add, sub, mult]
    ring

theorem pair_collision_conserves_momentum_witness :
    dot (sub (⟨⟨1, 0⟩, ⟨-2, 0⟩, 1⟩ : Ball).vel (⟨⟨0, 0⟩, ⟨2, 0⟩, 1⟩ : Ball).vel)
        (pairNormal ⟨⟨0, 0⟩, ⟨2, 0⟩, 1⟩ ⟨⟨1, 0⟩, ⟨-2, 0⟩, 1⟩) < 0 ∧
    add (resolvePair ⟨⟨0, 0⟩, ⟨2, 0⟩, 1⟩ ⟨⟨1, 0⟩, ⟨-2, 0⟩, 1⟩).1.vel
        (resolvePair ⟨⟨0, 0⟩, ⟨2, 0⟩, 1⟩ ⟨⟨1, 0⟩, ⟨-2, 0⟩, 1⟩).2.vel
      = add (⟨⟨0, 0⟩, ⟨2, 0⟩, 1⟩ : Ball).vel (⟨⟨1, 0⟩, ⟨-2, 0⟩, 1⟩ : Ball).vel := by
  have hm : mag (sub (⟨1, 0⟩ : Vector2) ⟨0, 0⟩) = 1 := by
    have : sub (⟨1, 0⟩ : Vector2) ⟨0, 0⟩ = ⟨1, 0⟩ := by simp [sub]
    rw [this]
    exact mag_eq_of_sq _ 1 (by norm_num) (by norm_num)
  have hn : pairNormal ⟨⟨0, 0⟩, ⟨2, 0⟩, 1⟩ ⟨⟨1, 0⟩, ⟨-2, 0⟩, 1⟩ = ⟨1, 0⟩ := by
    rw [pairNormal]
    simp only
    rw [if_neg (by rw [hm]; norm_num)]
    rw [normalize, if_neg (by rw [hm]; norm_num), hm]
    simp [sub]
  have happ : dot (sub (⟨⟨1, 0⟩, ⟨-2, 0⟩, 1⟩ : Ball).vel (⟨⟨0, 0⟩, ⟨2, 0⟩, 1⟩ : Ball).vel)
      (pairNormal ⟨⟨0, 0⟩, ⟨2, 0⟩, 1⟩ ⟨⟨1, 0⟩, ⟨-2, 0⟩, 1⟩) < 0 := by
    rw [hn]
    simp [dot, sub]
  have hover : mag (sub (⟨⟨1, 0⟩, ⟨-2, 0⟩, 1⟩ : Ball).pos (⟨⟨0, 0⟩, ⟨2, 0⟩, 1⟩ : Ball).pos)
      < (⟨⟨0, 0⟩, ⟨2, 0⟩, 1⟩ : Ball).radius + (⟨⟨1, 0⟩, ⟨-2, 0⟩, 1⟩ : Ball).radius := by
    show mag (sub (⟨1, 0⟩ : Vector2) ⟨0, 0⟩) < 1 + 1
    rw [hm]; norm_num
  exact ⟨happ, pair_collision_conserves_momentum _ _ hover happ⟩

/-- Claim C6: for an overlapping, approaching pair the response swaps the two
velocities' normal components and leaves the tangential components unchanged;
in particular, for a head-on pair with equal and opposite normal velocities the
two velocities are exchanged exactly. -/
theorem pair_collision_swaps_normal_components (A B : Ball)
    (hover : mag (sub B.pos A.pos) < A.radius + B.radius)
    (happ : dot (sub B.vel A.vel) (pairNormal A B) < 0) :
    (resolvePair A B).1.vel
        = add (sub A.vel (mult (pairNormal A B) (dot A.vel (pairNormal A B))))
            (mult (pairNormal A B) (dot B.vel (pairNormal A B)))
    ∧ (resolvePair A B).2.vel
        = add (sub B.vel (mult (pairNormal A B) (dot B.vel (pairNormal A B))))
            (mult (pairNormal A B) (dot A.vel (pairNormal A B)))
    ∧ dot (resolvePair A B).1.vel (pairNormal A B) = dot B.vel (pairNormal A B)
    ∧ dot (resolvePair A B).2.vel (pairNormal A B) = dot A.vel (pairNormal A B)
    ∧ sub (resolvePair A B).1.vel
          (mult (pairNormal A B) (dot (resolvePair A B).1.vel (pairNormal A B)))
        = sub A.vel (mult (pairNormal A B) (dot A.vel (pairNormal A B)))
    ∧ sub (resolvePair A B).2.vel
          (mult (pairNormal A B) (dot (resolvePair A B).2.vel (pairNormal A B)))
        = sub B.vel (mult (pairNormal A B) (dot B.vel (pairNormal A B)))
    ∧ ∀ s : ℝ, A.vel = mult (pairNormal A B) s → B.vel = mult (pairNormal A B) (-s) →
        (resolvePair A B).1.vel = B.vel ∧ (resolvePair A B).2.vel = A.vel := by
  have hn := pairNormal_unit A B
  simp only [dot] at hn
  have h1 : (resolvePair A B).1.vel
      = add (sub A.vel (mult (pairNormal A B) (dot A.vel (pairNormal A B))))
          (mult (pairNormal A B) (dot B.vel (pairNormal A B))) := by
    simp only [resolvePair]
    rw [if_pos hover, if_pos happ]
  have h2 : (resolvePair A B).2.vel
      = add (sub B.vel (mult (pairNormal A B) (dot B.vel (pairNormal A B))))
          (mult (pairNormal A B) (dot A.vel (pairNormal A B))) := by
    simp only [resolvePair]
    rw [if_pos hover, if_pos happ]
  have h3 : dot (resolvePair A B).1.vel (pairNormal A B) = dot B.vel (pairNormal A B) := by
    rw [h1]
    simp only [dot, add, sub, mult]
    linear_combination (B.vel.x * (pairNormal A B).x + B.vel.y * (pairNormal A B).y -
      A.vel.x * (pairNormal A B).x - A.vel.y * (pairNormal A B).y) * hn
  have h4 : dot (resolvePair A B).2.vel (pairNormal A B) = dot A.vel (pairNormal A B) := by
    rw [h2]
    simp only [dot, add, sub, mult]
    linear_combination (A.vel.x * (pairNormal A B).x + A.vel.y * (pairNormal A B).y -
      B.vel.x * (pairNormal A B).x - B.vel.y * (pairNormal A B).y) * hn
  refine ⟨h1, h2, h3, h4, ?_, ?_, ?_⟩
  · rw [h3, h1]
    ext
    · simp only [add, sub, mult, dot]
      ring
    · simp only [add, sub, mult, dot]
      ring
  · rw [h4, h2]
    ext
    · simp only [add, sub, mult, dot]
      ring
    · simp only [add, sub, mult, dot]
      ring
  · intro s hA hB
    constructor
    · rw [h1, hA, hB]
      ext
      · simp only [add, sub, mult, dot]
        linear_combination (-2 * (pairNormal A B).x * s) * hn
      · simp only [add, sub, mult, dot]
        linear_combination (-2 * (pairNormal A B).y * s) * hn
    · rw [h2, hA, hB]
      ext
      · simp only [add, sub, mult, dot]
        linear_combination (2 * (pairNormal A B).x * s) * hn
      · simp only [add, sub, mult, dot]
        linear_combination (2 * (pairNormal A B).y * s) * hn

theorem pair_collision_swaps_normal_components_witness :
    (resolvePair ⟨⟨0, 0⟩, ⟨2, 0⟩, 1⟩ ⟨⟨1, 0⟩, ⟨-2, 0⟩, 1⟩).1.vel
        = (⟨⟨1, 0⟩, ⟨-2, 0⟩, 1⟩ : Ball).vel
    ∧ (resolvePair ⟨⟨0, 0⟩, ⟨2, 0⟩, 1⟩ ⟨⟨1, 0⟩, ⟨-2, 0⟩, 1⟩).2.vel
        = (⟨⟨0, 0⟩, ⟨2, 0⟩, 1⟩ : Ball).vel := by
  have hm : mag (sub (⟨1, 0⟩ : Vector2) ⟨0, 0⟩) = 1 := by
    have : sub (⟨1, 0⟩ : Vector2) ⟨0, 0⟩ = ⟨1, 0⟩ := by simp [sub]
    rw [this]
    exact mag_eq_of_sq _ 1 (by norm_num) (by norm_num)
  have hn : pairNormal ⟨⟨0, 0⟩, ⟨2, 0⟩, 1⟩ ⟨⟨1, 0⟩, ⟨-2, 0⟩, 1⟩ = ⟨1, 0⟩ := by
    rw [pairNormal]
    simp only
    rw [if_neg (by rw [hm]; norm_num)]
    rw [normalize, if_neg (by rw [hm]; norm_num), hm]
    simp [sub]
  have happ : dot (sub (⟨⟨1, 0⟩, ⟨-2, 0⟩, 1⟩ : Ball).vel (⟨⟨0, 0⟩, ⟨2, 0⟩, 1⟩ : Ball).vel)
      (pairNormal ⟨⟨0, 0⟩, ⟨2, 0⟩, 1⟩ ⟨⟨1, 0⟩, ⟨-2, 0⟩, 1⟩) < 0 := by
    rw [hn]
    simp [dot, sub]
  have hover : mag (sub (⟨⟨1, 0⟩, ⟨-2, 0⟩, 1⟩ : Ball).pos (⟨⟨0, 0⟩, ⟨2, 0⟩, 1⟩ : Ball).pos)
      < (⟨⟨0, 0⟩, ⟨2, 0⟩, 1⟩ : Ball).radius + (⟨⟨1, 0⟩, ⟨-2, 0⟩, 1⟩ : Ball).radius := by
    show mag (sub (⟨1, 0⟩ : Vector2) ⟨0, 0⟩) < 1 + 1
    rw [hm]; norm_num
  have h := (pair_collision_swaps_normal_components _ _ hover happ).2.2.2.2.2.2 2
    (by rw [hn]; show (⟨2, 0⟩ : Vector2) = mult ⟨1, 0⟩ 2; simp [mult])
    (by rw [hn]; show (⟨-2, 0⟩ : Vector2) = mult ⟨1, 0⟩ (-2); simp [mult])
  exact h

/-- Claim C1: one boundary-edge resolution step on a penetrating ball
(`dist < radius`) displaces the position by exactly `radius - dist` along the
outward normal; the velocity is reflected, scaled by the restitution and
nudged by `0.1 * normal` exactly when its normal component is negative, and is
otherwise unchanged; for a ball moving straight into the wall at speed `s`
the resulting velocity is `(restitution * s + 0.1) * normal`, outward speed
`restitution * s` up to the fixed `0.1` nudge. -/
theorem boundary_bounce_postcondition (restitution : ℝ) (p1 p2 : Vector2) (ball : Ball)
    (R : SegResult) (hR : distPointToSegment ball.pos p1 p2 = R)
    (hpen : R.dist < ball.radius) :
    (resolveEdge restitution p1 p2 ball).pos
        = add ball.pos (mult R.normal (ball.radius - R.dist))
    ∧ (dot ball.vel R.normal < 0 →
        (resolveEdge restitution p1 p2 ball).vel
          = add (mult (sub ball.vel (mult R.normal (2 * dot ball.vel R.normal))) restitution)
              (mult R.normal 0.1))
    ∧ (¬ dot ball.vel R.normal < 0 → (resolveEdge restitution p1 p2 ball).vel = ball.vel)
    ∧ (∀ s : ℝ, 0 < s → dot R.normal R.normal = 1 → ball.vel = mult R.normal (-s) →
        (resolveEdge restitution p1 p2 ball).vel = mult R.normal (restitution * s + 0.1)
        ∧ dot (resolveEdge restitution p1 p2 ball).vel R.normal = restitution * s + 0.1) := by
  have hstep : resolveEdge restitution p1 p2 ball =
      if dot ball.vel R.normal < 0 then
        ({ pos := add ball.pos (mult R.normal (ball.radius - R.dist))
           vel := add (mult (sub ball.vel
               (mult (mult R.normal (2 * dot ball.vel R.normal)) 1)) restitution)
             (mult R.normal 0.1)
           radius := ball.radius } : Ball)
      else
        { pos := add ball.pos (mult R.normal (ball.radius - R.dist)),
          vel := ball.vel, radius := ball.radius } := by
    simp only [resolveEdge, hR]
    rw [if_pos hpen]
  refine ⟨?_, ?_, ?_, ?_⟩
  · rw [hstep]
    by_cases hv : dot ball.vel R.normal < 0
    · rw [if_pos hv]
    · rw [if_neg hv]
  · intro hv
    rw [hstep, if_pos hv]
    ext
    · simp only [add, sub, mult]
      ring
    · simp only [add, sub, mult]
      ring
  · intro hv
    rw [hstep, if_neg hv]
  · intro s hs hunit hv
    have hn : R.normal.x * R.normal.x + R.normal.y * R.normal.y = 1 := by
      simpa [dot] using hunit
    have hvn : dot ball.vel R.normal = -s := by
      rw [hv]
      simp only [dot, mult]
      linear_combination (-s) * hn
    have hneg : dot ball.vel R.normal < 0 := by rw [hvn]; linarith
    have hvel : (resolveEdge restitution p1 p2 ball).vel
        = mult R.normal (restitution * s + 0.1) := by
      rw [hstep, if_pos hneg]
      show add (mult (sub ball.vel
          (mult (mult R.normal (2 * dot ball.vel R.normal)) 1)) restitution)
        (mult R.normal 0.1) = mult R.normal (restitution * s + 0.1)
      rw [hvn, hv]
      ext
      · simp only [add, sub, mult]
        ring
      · simp only [add, sub, mult]
        ring
    refine ⟨hvel, ?_⟩
    rw [hvel]
    simp only [dot, mult]
    linear_combination (restitution * s + 0.1) * hn

theorem boundary_bounce_postcondition_witness :
    (distPointToSegment ⟨0, -3⟩ ⟨-10, 0⟩ ⟨10, 0⟩).dist < 5
    ∧ (resolveEdge 0.5 ⟨-10, 0⟩ ⟨10, 0⟩ ⟨⟨0, -3⟩, ⟨0, 2⟩, 5⟩).pos = ⟨0, -5⟩
    ∧ (resolveEdge 0.5 ⟨-10, 0⟩ ⟨10, 0⟩ ⟨⟨0, -3⟩, ⟨0, 2⟩, 5⟩).vel = ⟨0, -1.1⟩ := by
  have hc : closestPoint ⟨0, -3⟩ ⟨-10, 0⟩ ⟨10, 0⟩ = ⟨0, 0⟩ := by
    rw [closestPoint]
    simp only [sub, dot, mult, add]
    norm_num
  have hsub : sub (⟨0, -3⟩ : Vector2) ⟨0, 0⟩ = ⟨0, -3⟩ := by
    ext <;> simp [sub]
  have hm : mag (⟨0, -3⟩ : Vector2) = 3 :=
    mag_eq_of_sq _ 3 (by norm_num) (by norm_num)
  have hnz : normalize (⟨0, -3⟩ : Vector2) = ⟨0, -1⟩ := by
    rw [normalize, if_neg (by rw [hm]; norm_num)]
    rw [hm]
    ext <;> norm_num
  have hseg : distPointToSegment ⟨0, -3⟩ ⟨-10, 0⟩ ⟨10, 0⟩ = ⟨3, ⟨0, -1⟩, ⟨0, 0⟩⟩ := by
    rw [distPointToSegment, hc, hsub, hm]
    rw [if_neg (by norm_num : (3 : ℝ) ≠ 0), hnz]
  have h := boundary_bounce_postcondition 0.5 ⟨-10, 0⟩ ⟨10, 0⟩ ⟨⟨0, -3⟩, ⟨0, 2⟩, 5⟩
    ⟨3, ⟨0, -1⟩, ⟨0, 0⟩⟩ hseg (by norm_num)
  have hho := h.2.2.2 2 (by norm_num) (by simp [dot]) (by ext <;> simp [mult])
  refine ⟨by rw [hseg]; norm_num, ?_, ?_⟩
  · rw [h.1]
    ext <;> norm_num [add, mult]
  · rw [hho.1]
    ext <;> norm_num [mult]

theorem set_getD_self {α : Type} (l : List α) (i : ℕ) (d : α) :
    l.set i (l.getD i d) = l := by
  induction l generalizing i with
  | nil => rfl
  | cons a t ih =>
    cases i with
    | zero => rfl
    | succ n =>
      show a :: t.set n (t.getD n d) = a :: t
      rw [ih]

theorem map_id_of {α : Type} (l : List α) (f : α → α) (h : ∀ a ∈ l, f a = a) :
    l.map f = l := by
  induction l with
  | nil => rfl
  | cons a t ih =>
    simp only [List.map_cons, h a (by simp)]
    rw [ih fun b hb => h b (by simp [hb])]

theorem resolveEdge_noop (restitution : ℝ) (p1 p2 : Vector2) (ball : Ball)
    (h : ¬ (distPointToSegment ball.pos p1 p2).dist < ball.radius) :
    resolveEdge restitution p1 p2 ball = ball := by
  simp only [resolveEdge]
  rw [if_neg h]

theorem foldl_resolveEdge_noop (restitution : ℝ) (ball : Ball)
    (L : List (Vector2 × Vector2))
    (h : ∀ e ∈ L, ¬ (distPointToSegment ball.pos e.1 e.2).dist < ball.radius) :
    L.foldl (fun b e => resolveEdge restitution e.1 e.2 b) ball = ball := by
  induction L with
  | nil => rfl
  | cons e t ih =>
    rw [List.foldl_cons, resolveEdge_noop _ _ _ _ (h e (by simp))]
    exact ih fun e2 he2 => h e2 (by simp [he2])

theorem resolvePair_noop (A B : Ball)
    (h : ¬ mag (sub B.pos A.pos) < A.radius + B.radius) :
    resolvePair A B = (A, B) := by
  simp only [resolvePair]
  rw [if_neg h]

theorem pairIndices_mem (n : ℕ) (p : ℕ × ℕ) (h : p ∈ pairIndices n) :
    p.1 < p.2 ∧ p.2 < n := by
  simp only [pairIndices, List.mem_flatMap, List.mem_filterMap, List.mem_range] at h
  obtain ⟨i, hi, j, hj, hpj⟩ := h
  split at hpj
  · cases hpj
    exact ⟨by assumption, hj⟩
  · cases hpj

theorem foldl_pairs_noop (balls : List Ball) (L : List (ℕ × ℕ))
    (hmem : ∀ p ∈ L, p.1 < p.2 ∧ p.2 < balls.length)
    (h : ∀ i j, i < j → j < balls.length →
      ¬ mag (sub ((balls.getD j default).pos) ((balls.getD i default).pos))
        < (balls.getD i default).radius + (balls.getD j default).radius) :
    L.foldl
      (fun bs ij =>
        let r := resolvePair (bs.getD ij.1 default) (bs.getD ij.2 default)
        (bs.set ij.1 r.1).set ij.2 r.2)
      balls = balls := by
  induction L with
  | nil => rfl
  | cons q t ih =>
    rw [List.foldl_cons]
    have hq := hmem q (by simp)
    have hnoop := resolvePair_noop _ _ (h q.1 q.2 hq.1 hq.2)
    have hstep : (let r := resolvePair (balls.getD q.1 default) (balls.getD q.2 default)
        (balls.set q.1 r.1).set q.2 r.2) = balls := by
      simp only [hnoop]
      rw [set_getD_self, set_getD_self]
    rw [hstep]
    exact ih fun p hp => hmem p (by simp [hp])

theorem pairPhase_noop (balls : List Ball)
    (h : ∀ i j, i < j → j < balls.length →
      ¬ mag (sub ((balls.getD j default).pos) ((balls.getD i default).pos))
        < (balls.getD i default).radius + (balls.getD j default).radius) :
    pairPhase balls = balls :=
  foldl_pairs_noop balls (pairIndices balls.length)
    (fun p hp => pairIndices_mem _ p hp) h

theorem safetyReset_noop (shapeRadius : ℝ) (b : Ball)
    (h : ¬ mag b.pos > shapeRadius + 200) : safetyReset shapeRadius b = b := by
  rw [safetyReset, if_neg h]

theorem integrate_zero (cfg : SimulationConfig) (gs : GlobalSettings) (b : Ball)
    (h : gs.timeScale = 0) : integrate cfg gs b = b := by
  have hf : frictionFactor cfg.friction 0 = 1 := by
    rw [frictionFactor, mul_zero, sub_zero]
  ext
  all_goals simp only [integrate, h, hf, add, mult]
  all_goals ring

/-- Claim C7: on a configuration in which no ball's segment-clamped distance to
any boundary edge is below its radius, the boundary collision phase changes no
ball. -/
theorem boundary_phase_idempotent (restitution : ℝ) (vs : List Vector2)
    (balls : List Ball)
    (h : ∀ b ∈ balls, ∀ e ∈ edges vs,
      ¬ (distPointToSegment b.pos e.1 e.2).dist < b.radius) :
    balls.map (boundaryPhase restitution vs) = balls := by
  apply map_id_of
  intro b hb
  exact foldl_resolveEdge_noop restitution b (edges vs) (h b hb)

theorem no_hit_of_closest (p a b : Vector2) (r : ℝ) (c : Vector2)
    (hc : closestPoint p a b = c) (hr : 0 ≤ r)
    (hsq : r * r ≤ (sub p c).x * (sub p c).x + (sub p c).y * (sub p c).y) :
    ¬ (distPointToSegment p a b).dist < r := by
  have hd : (distPointToSegment p a b).dist = mag (sub p c) := by
    show mag (sub p (closestPoint p a b)) = mag (sub p c)
    rw [hc]
  rw [hd]
  exact not_mag_lt _ r hr hsq

theorem no_hit_origin_a : ¬ (distPointToSegment ⟨0, 0⟩ ⟨450, 0⟩ ⟨0, 450⟩).dist < 5 := by
  refine no_hit_of_closest _ _ _ 5 ⟨225, 225⟩ ?_ (by norm_num)
    (by simp only [sub]; norm_num)
  rw [closestPoint]
  simp only [sub, dot, mult, add]
  norm_num

theorem no_hit_origin_b : ¬ (distPointToSegment ⟨0, 0⟩ ⟨0, 450⟩ ⟨-450, 0⟩).dist < 5 := by
  refine no_hit_of_closest _ _ _ 5 ⟨-225, 225⟩ ?_ (by norm_num)
    (by simp only [sub]; norm_num)
  rw [closestPoint]
  simp only [sub, dot, mult, add]
  norm_num

theorem no_hit_origin_c : ¬ (distPointToSegment ⟨0, 0⟩ ⟨-450, 0⟩ ⟨0, -450⟩).dist < 5 := by
  refine no_hit_of_closest _ _ _ 5 ⟨-225, -225⟩ ?_ (by norm_num)
    (by simp only [sub]; norm_num)
  rw [closestPoint]
  simp only [sub, dot, mult, add]
  norm_num

theorem no_hit_origin_d : ¬ (distPointToSegment ⟨0, 0⟩ ⟨0, -450⟩ ⟨450, 0⟩).dist < 5 := by
  refine no_hit_of_closest _ _ _ 5 ⟨225, -225⟩ ?_ (by norm_num)
    (by simp only [sub]; norm_num)
  rw [closestPoint]
  simp only [sub, dot, mult, add]
  norm_num

theorem no_hit_far_a : ¬ (distPointToSegment ⟨1000, 0⟩ ⟨450, 0⟩ ⟨0, 450⟩).dist < 5 := by
  refine no_hit_of_closest _ _ _ 5 ⟨450, 0⟩ ?_ (by norm_num)
    (by simp only [sub]; norm_num)
  rw [closestPoint]
  simp only [sub, dot, mult, add]
  norm_num

theorem no_hit_far_b : ¬ (distPointToSegment ⟨1000, 0⟩ ⟨0, 450⟩ ⟨-450, 0⟩).dist < 5 := by
  refine no_hit_of_closest _ _ _ 5 ⟨0, 450⟩ ?_ (by norm_num)
    (by simp only [sub]; norm_num)
  rw [closestPoint]
  simp only [sub, dot, mult, add]
  norm_num

theorem no_hit_far_c : ¬ (distPointToSegment ⟨1000, 0⟩ ⟨-450, 0⟩ ⟨0, -450⟩).dist < 5 := by
  refine no_hit_of_closest _ _ _ 5 ⟨0, -450⟩ ?_ (by norm_num)
    (by simp only [sub]; norm_num)
  rw [closestPoint]
  simp only [sub, dot, mult, add]
  norm_num

theorem no_hit_far_d : ¬ (distPointToSegment ⟨1000, 0⟩ ⟨0, -450⟩ ⟨450, 0⟩).dist < 5 := by
  refine no_hit_of_closest _ _ _ 5 ⟨450, 0⟩ ?_ (by norm_num)
    (by simp only [sub]; norm_num)
  rw [closestPoint]
  simp only [sub, dot, mult, add]
  norm_num

theorem edges_square :
    edges [⟨450, 0⟩, ⟨0, 450⟩, ⟨-450, 0⟩, ⟨0, -450⟩]
      = [((⟨450, 0⟩ : Vector2), (⟨0, 450⟩ : Vector2)), (⟨0, 450⟩, ⟨-450, 0⟩),
         (⟨-450, 0⟩, ⟨0, -450⟩), (⟨0, -450⟩, ⟨450, 0⟩)] := rfl

theorem boundary_phase_idempotent_witness :
    ([⟨⟨0, 0⟩, ⟨1, 1⟩, 5⟩] : List Ball).map
      (boundaryPhase 0.8 [⟨450, 0⟩, ⟨0, 450⟩, ⟨-450, 0⟩, ⟨0, -450⟩])
      = [⟨⟨0, 0⟩, ⟨1, 1⟩, 5⟩] := by
  apply boundary_phase_idempotent
  intro b hb e he
  simp only [List.mem_singleton] at hb
  subst hb
  rw [edges_square] at he
  simp only [List.mem_cons, List.not_mem_nil, or_false] at he
  rcases he with h | h | h | h <;> subst h
  · exact no_hit_origin_a
  · exact no_hit_origin_b
  · exact no_hit_origin_c
  · exact no_hit_origin_d

theorem cos_three_pi_halves : Real.cos (Real.pi + Real.pi / 2) = 0 := by
  rw [Real.cos_add, Real.cos_pi, Real.sin_pi, Real.cos_pi_div_two]
  norm_num

theorem sin_three_pi_halves : Real.sin (Real.pi + Real.pi / 2) = -1 := by
  rw [Real.sin_add, Real.cos_pi, Real.sin_pi, Real.sin_pi_div_two]
  norm_num

theorem generatePolygon_square :
    generatePolygon 4 450 ⟨0, 0⟩ 0 = [⟨450, 0⟩, ⟨0, 450⟩, ⟨-450, 0⟩, ⟨0, -450⟩] := by
  rw [generatePolygon, show List.range 4 = [0, 1, 2, 3] from rfl]
  simp only [List.map_cons, List.map_nil]
  have a0 : ((0 : ℕ) : ℝ) * 2 * Real.pi / ((4 : ℕ) : ℝ) + 0 = 0 := by push_cast; ring
  have a1 : ((1 : ℕ) : ℝ) * 2 * Real.pi / ((4 : ℕ) : ℝ) + 0 = Real.pi / 2 := by
    push_cast; ring
  have a2 : ((2 : ℕ) : ℝ) * 2 * Real.pi / ((4 : ℕ) : ℝ) + 0 = Real.pi := by
    push_cast; ring
  have a3 : ((3 : ℕ) : ℝ) * 2 * Real.pi / ((4 : ℕ) : ℝ) + 0 = Real.pi + Real.pi / 2 := by
    push_cast; ring
  rw [a0, a1, a2, a3, Real.cos_zero, Real.sin_zero, Real.cos_pi_div_two,
    Real.sin_pi_div_two, Real.cos_pi, Real.sin_pi, cos_three_pi_halves,
    sin_three_pi_halves]
  norm_num

theorem square_vertices :
    generateShape "square" 4 450 ⟨0, 0⟩ 0 = [⟨450, 0⟩, ⟨0, 450⟩, ⟨-450, 0⟩, ⟨0, -450⟩] := by
  rw [generateShape,
    if_pos (by decide : "square" ∈ ["triangle", "square", "pentagon", "hexagon", "octagon"]),
    if_neg (by decide : ¬ (4 : ℕ) = 0)]
  exact generatePolygon_square

/-- Claim C5 (amended): a tick with `timeScale = 0` leaves the rotation
accumulator and, on a state in which no ball penetrates a boundary edge, no
pair overlaps and every ball is within the runaway threshold, the entire
simulation state exactly unchanged.  (The collision-resolution and
runaway-recovery passes still execute at `timeScale = 0`, so a penetrating or
out-of-bounds ball is still moved, which is why the restriction on the state is
needed.) -/
theorem paused_tick_identity (cfg : SimulationConfig) (gs : GlobalSettings)
    (width height : ℝ) (st : SimState) (hts : gs.timeScale = 0)
    (hwall : ∀ b ∈ st.balls, ∀ e ∈ edges (generateShape cfg.shapeType cfg.vertexCount
        (min width height * 0.45) ⟨0, 0⟩ st.rotation),
      ¬ (distPointToSegment b.pos e.1 e.2).dist < b.radius)
    (hpair : ∀ i j, i < j → j < st.balls.length →
      ¬ mag (sub ((st.balls.getD j default).pos) ((st.balls.getD i default).pos))
        < (st.balls.getD i default).radius + (st.balls.getD j default).radius)
    (hbound : ∀ b ∈ st.balls, ¬ mag b.pos > min width height * 0.45 + 200) :
    updatePhysics cfg gs width height st = st := by
  have hrot : st.rotation +
      (if cfg.rotationSpeed = 0 then 0.005 else cfg.rotationSpeed) *
        gs.rotationMultiplier * gs.timeScale = st.rotation := by
    rw [hts]; ring
  simp only [updatePhysics]
  rw [hrot]
  have h1 : (st.balls.map fun b => boundaryPhase (cfg.restitution * gs.bouncinessMultiplier)
      (generateShape cfg.shapeType cfg.vertexCount (min width height * 0.45) ⟨0, 0⟩
        st.rotation) (integrate cfg gs b)) = st.balls := by
    apply map_id_of
    intro b hb
    rw [integrate_zero cfg gs b hts]
    exact foldl_resolveEdge_noop _ b _ (hwall b hb)
  rw [h1, pairPhase_noop st.balls hpair,
    map_id_of st.balls (safetyReset (min width height * 0.45))
      fun b hb => safetyReset_noop _ b (hbound b hb)]

theorem paused_tick_identity_witness :
    updatePhysics ⟨"square", 4, 0.3, 0.001, 0.5, 0.01⟩ ⟨0, 1, 1, 1⟩ 1000 1000
        ⟨[⟨⟨0, 0⟩, ⟨3, 4⟩, 5⟩], 0⟩ = ⟨[⟨⟨0, 0⟩, ⟨3, 4⟩, 5⟩], 0⟩ := by
  apply paused_tick_identity _ _ _ _ _ rfl
  · intro b hb e he
    simp only [List.mem_singleton] at hb
    subst hb
    rw [show min (1000 : ℝ) 1000 * 0.45 = 450 by norm_num] at he
    have hrw : generateShape "square" 4 450 ⟨0, 0⟩
        (⟨[⟨⟨0, 0⟩, ⟨3, 4⟩, 5⟩], 0⟩ : SimState).rotation
        = [⟨450, 0⟩, ⟨0, 450⟩, ⟨-450, 0⟩, ⟨0, -450⟩] := square_vertices
    rw [hrw, edges_square] at he
    simp only [List.mem_cons, List.not_mem_nil, or_false] at he
    rcases he with h | h | h | h <;> subst h
    · exact no_hit_origin_a
    · exact no_hit_origin_b
    · exact no_hit_origin_c
    · exact no_hit_origin_d
  · intro i j hij hj
    simp only [List.length_singleton] at hj
    omega
  · intro b hb
    simp only [List.mem_singleton] at hb
    subst hb
    show ¬ mag ⟨0, 0⟩ > min (1000 : ℝ) 1000 * 0.45 + 200
    rw [show mag (⟨0, 0⟩ : Vector2) = 0 from mag_eq_of_sq _ 0 (by norm_num) (by norm_num)]
    norm_num

theorem boundaryPhase_far_noop :
    boundaryPhase (0.5 * 1) [⟨450, 0⟩, ⟨0, 450⟩, ⟨-450, 0⟩, ⟨0, -450⟩]
      ⟨⟨1000, 0⟩, ⟨0, 0⟩, 5⟩ = ⟨⟨1000, 0⟩, ⟨0, 0⟩, 5⟩ := by
  apply foldl_resolveEdge_noop
  intro e he
  rw [edges_square] at he
  simp only [List.mem_cons, List.not_mem_nil, or_false] at he
  rcases he with h | h | h | h <;> subst h
  · exact no_hit_far_a
  · exact no_hit_far_b
  · exact no_hit_far_c
  · exact no_hit_far_d

theorem safetyReset_far :
    safetyReset 450 ⟨⟨1000, 0⟩, ⟨0, 0⟩, 5⟩ = ⟨⟨0, 0⟩, ⟨0, 0⟩, 5⟩ := by
  rw [safetyReset, if_pos]
  show mag ⟨1000, 0⟩ > 450 + 200
  rw [show mag (⟨1000, 0⟩ : Vector2) = 1000 from
    mag_eq_of_sq _ 1000 (by norm_num) (by norm_num)]
  norm_num

/-- Claim C5 (counterexample): with `timeScale = 0` a tick still moves a
particle — here the runaway-recovery pass teleports an out-of-bounds ball to
the origin — so the pause tick does NOT leave every particle's position
unchanged. -/
theorem paused_tick_moves_runaway_ball :
    (updatePhysics ⟨"square", 4, 0.3, 0.001, 0.5, 0.01⟩ ⟨0, 1, 1, 1⟩ 1000 1000
        ⟨[⟨⟨1000, 0⟩, ⟨0, 0⟩, 5⟩], 0⟩).balls = [⟨⟨0, 0⟩, ⟨0, 0⟩, 5⟩]
    ∧ (⟨[⟨⟨1000, 0⟩, ⟨0, 0⟩, 5⟩], 0⟩ : SimState).balls = [⟨⟨1000, 0⟩, ⟨0, 0⟩, 5⟩]
    ∧ ([⟨⟨0, 0⟩, ⟨0, 0⟩, 5⟩] : List Ball) ≠ [⟨⟨1000, 0⟩, ⟨0, 0⟩, 5⟩] := by
  refine ⟨?_, rfl, by simp [Ball.mk.injEq, Vector2.mk.injEq]⟩
  simp only [updatePhysics]
  rw [show min (1000 : ℝ) 1000 * 0.45 = 450 by norm_num]
  rw [show (0 : ℝ) + (if (0.01 : ℝ) = 0 then 0.005 else 0.01) * 1 * 0 = 0 by simp]
  rw [square_vertices]
  simp only [List.map_cons, List.map_nil]
  rw [integrate_zero _ _ _ rfl, boundaryPhase_far_noop]
  rw [show pairPhase [(⟨⟨1000, 0⟩, ⟨0, 0⟩, 5⟩ : Ball)] = [⟨⟨1000, 0⟩, ⟨0, 0⟩, 5⟩] from rfl]
  simp only [List.map_cons, List.map_nil]
  rw [safetyReset_far]

/-- Claim C8 (amended): the canonical star of `generateShape` has exactly `2p`
vertices alternating at exact distance `radius` (even indices) and exact
distance `0.45 * radius` (odd indices) from the center.  (The legacy canvas
variant nevertheless ships a second inner ratio `0.4`; see the
counterexample.) -/
theorem star_vertices_alternate (p : ℕ) (r : ℝ) (center : Vector2) (rot : ℝ)
    (hp : 1 ≤ p) (hr : 0 ≤ r) :
    (generateShape "star" p r center rot).length = 2 * p
    ∧ ∀ i, i < 2 * p →
        mag (sub ((generateShape "star" p r center rot).getD i ⟨0, 0⟩) center)
          = if i % 2 = 0 then r else 0.45 * r := by
  have hshape : generateShape "star" p r center rot
      = generateStar p r (r * 0.45) center rot := by
    rw [generateShape,
      if_neg (by decide :
        ¬ "star" ∈ ["triangle", "square", "pentagon", "hexagon", "octagon"]),
      if_pos rfl, if_neg (by omega : ¬ p = 0)]
  rw [hshape]
  have hlen : (generateStar p r (r * 0.45) center rot).length = 2 * p := by
    rw [generateStar, List.length_map, List.length_range]
    omega
  refine ⟨hlen, ?_⟩
  intro i hi
  have hilt : i < (generateStar p r (r * 0.45) center rot).length := by
    rw [hlen]; exact hi
  rw [List.getD_eq_getElem _ _ hilt]
  have hsc := Real.sin_sq_add_cos_sq (((i : ℝ) * Real.pi) / (p : ℝ) + rot)
  have hvert : (generateStar p r (r * 0.45) center rot)[i]
      = ⟨center.x + (if i % 2 = 0 then r else r * 0.45) *
            Real.cos (((i : ℝ) * Real.pi) / (p : ℝ) + rot),
         center.y + (if i % 2 = 0 then r else r * 0.45) *
            Real.sin (((i : ℝ) * Real.pi) / (p : ℝ) + rot)⟩ := by
    simp [generateStar]
  rw [hvert]
  by_cases hpar : i % 2 = 0
  · rw [if_pos hpar, if_pos hpar]
    have hsub : sub (⟨center.x + r * Real.cos (((i : ℝ) * Real.pi) / (p : ℝ) + rot),
        center.y + r * Real.sin (((i : ℝ) * Real.pi) / (p : ℝ) + rot)⟩ : Vector2) center
        = ⟨r * Real.cos (((i : ℝ) * Real.pi) / (p : ℝ) + rot),
           r * Real.sin (((i : ℝ) * Real.pi) / (p : ℝ) + rot)⟩ := by
      ext
      · simp [sub]
      · simp [sub]
    rw [hsub]
    apply mag_eq_of_sq _ r hr
    linear_combination (r * r) * hsc
  · rw [if_neg hpar, if_neg hpar]
    have hsub : sub (⟨center.x + r * 0.45 * Real.cos (((i : ℝ) * Real.pi) / (p : ℝ) + rot),
        center.y + r * 0.45 * Real.sin (((i : ℝ) * Real.pi) / (p : ℝ) + rot)⟩ : Vector2)
          center
        = ⟨r * 0.45 * Real.cos (((i : ℝ) * Real.pi) / (p : ℝ) + rot),
           r * 0.45 * Real.sin (((i : ℝ) * Real.pi) / (p : ℝ) + rot)⟩ := by
      ext
      · simp [sub]
      · simp [sub]
    rw [hsub]
    apply mag_eq_of_sq _ (0.45 * r) (by nlinarith)
    linear_combination (r * 0.45 * (r * 0.45)) * hsc

theorem star_vertices_alternate_witness :
    (generateShape "star" 5 1 ⟨0, 0⟩ 0).length = 2 * 5
    ∧ mag (sub ((generateShape "star" 5 1 ⟨0, 0⟩ 0).getD 1 ⟨0, 0⟩) ⟨0, 0⟩)
        = 0.45 * 1 := by
  have h := star_vertices_alternate 5 1 ⟨0, 0⟩ 0 (by norm_num) (by norm_num)
  refine ⟨h.1, ?_⟩
  have h2 := h.2 1 (by norm_num)
  rw [if_neg (by norm_num : ¬ (1 : ℕ) % 2 = 0)] at h2
  exact h2

/-- Claim C8 (counterexample): the legacy canvas variant builds its star
boundary with inner radius `0.4 * shapeRadius`; at `shapeRadius = 1` its
vertex 1 lies at exact distance `0.4` from the center, and `0.4 ≠ 0.45 * 1` —
a second, divergent inner-radius ratio ships in the program. -/
theorem legacy_star_ships_inner_ratio :
    mag ((legacyLocalVertices "star" 5 1 0).getD 1 ⟨0, 0⟩) = 0.4
    ∧ (0.4 : ℝ) ≠ 0.45 * 1 := by
  refine ⟨?_, by norm_num⟩
  have hleg : legacyLocalVertices "star" 5 1 0 = generateStar 5 1 (1 * 0.4) ⟨0, 0⟩ 0 := by
    rw [legacyLocalVertices, if_pos rfl, if_neg (by decide : ¬ (5 : ℕ) = 0)]
  rw [hleg]
  have hilt : 1 < (generateStar 5 1 (1 * 0.4) ⟨0, 0⟩ 0).length := by
    rw [generateStar, List.length_map, List.length_range]
    omega
  rw [List.getD_eq_getElem _ _ hilt]
  have hsc := Real.sin_sq_add_cos_sq (((1 : ℕ) : ℝ) * Real.pi / ((5 : ℕ) : ℝ) + 0)
  have hvert : (generateStar 5 1 (1 * 0.4) ⟨0, 0⟩ 0)[1]
      = ⟨0 + (1 * 0.4) * Real.cos (((1 : ℕ) : ℝ) * Real.pi / ((5 : ℕ) : ℝ) + 0),
         0 + (1 * 0.4) * Real.sin (((1 : ℕ) : ℝ) * Real.pi / ((5 : ℕ) : ℝ) + 0)⟩ := by
    simp [generateStar]
  rw [hvert]
  apply mag_eq_of_sq _ 0.4 (by norm_num)
  linear_combination (0.16 : ℝ) * hsc

/-- Claim C3 (code bug): the runaway-recovery comparison does not catch a
non-finite position — `NaN > threshold` evaluates false in IEEE semantics —
so the safety pass leaves a ball whose position is NaN (and its velocity)
completely unchanged instead of resetting it to the origin with zero
velocity. -/
theorem nan_position_survives_safety_reset :
    jsSafetyReset (.fin 450) ⟨.nan, .fin 0⟩ ⟨.fin 1, .fin 2⟩
      = (⟨.nan, .fin 0⟩, ⟨.fin 1, .fin 2⟩) := by
  simp [jsSafetyReset, jsVMag, jsVDot, jsMul, jsAdd, jsSqrt, jsGt, jsLt]

/-- Claim C9 (counterexample): for the degenerate (zero-length) segment the
closest-point computation is unguarded — the projection parameter divides
`0 / 0`, giving NaN, and the returned distance is NaN rather than a defined
finite fallback value. -/
theorem degenerate_segment_yields_nan :
    (jsDistPointToSegment ⟨.fin 1, .fin 0⟩ ⟨.fin 0, .fin 0⟩ ⟨.fin 0, .fin 0⟩).dist
      = JSNum.nan := by
  simp [jsDistPointToSegment, jsVSub, jsVAdd, jsVDot, jsVMult, jsVMag, jsSub, jsNeg,
    jsAdd, jsMul, jsDiv, jsSqrt, jsMin, jsMax, jsEqNum]

/-- Claim C9 (amended): the `normalize` site is guarded — normalizing the
zero-length vector yields the defined finite fallback `(0, 0)` — and a
zero-distance contact falls back to the edge-perpendicular normal, a unit
vector perpendicular to the edge whenever the edge is non-degenerate; but the
projection site of `distPointToSegment` is not guarded: for every point, on a
degenerate (zero-length) segment the projection parameter evaluates
`0 / 0 = NaN` and both the returned distance and the returned closest point
are NaN. -/
theorem normalize_guard_and_degenerate_projection :
    jsNormalize ⟨.fin 0, .fin 0⟩ = ⟨.fin 0, .fin 0⟩
    ∧ (∀ p a b : Vector2, mag (sub p (closestPoint p a b)) = 0 → mag (sub b a) ≠ 0 →
        (distPointToSegment p a b).normal = normalize ⟨-(sub b a).y, (sub b a).x⟩
        ∧ dot (distPointToSegment p a b).normal (sub b a) = 0
        ∧ dot (distPointToSegment p a b).normal (distPointToSegment p a b).normal = 1)
    ∧ ∀ px py ax ay : ℝ,
        (jsDistPointToSegment ⟨.fin px, .fin py⟩ ⟨.fin ax, .fin ay⟩
            ⟨.fin ax, .fin ay⟩).dist = JSNum.nan
        ∧ (jsDistPointToSegment ⟨.fin px, .fin py⟩ ⟨.fin ax, .fin ay⟩
            ⟨.fin ax, .fin ay⟩).closest = ⟨JSNum.nan, JSNum.nan⟩ := by
  refine ⟨?_, ?_, ?_⟩
  · simp [jsNormalize, jsVMag, jsVDot, jsMul, jsAdd, jsSqrt, jsEqNum, Real.sqrt_zero]
  · intro p a b h0 hedge
    have hperpmag : mag (⟨-(sub b a).y, (sub b a).x⟩ : Vector2) = mag (sub b a) := by
      rw [mag, mag]
      congr 1
      ring
    have hpm : mag (⟨-(sub b a).y, (sub b a).x⟩ : Vector2) ≠ 0 := by
      rw [hperpmag]
      exact hedge
    have hnormal : (distPointToSegment p a b).normal
        = normalize ⟨-(sub b a).y, (sub b a).x⟩ := by
      show (if mag (sub p (closestPoint p a b)) = 0
          then normalize ⟨-(sub b a).y, (sub b a).x⟩
          else normalize (sub p (closestPoint p a b)))
        = normalize ⟨-(sub b a).y, (sub b a).x⟩
      rw [if_pos h0]
    have hdot : dot (normalize ⟨-(sub b a).y, (sub b a).x⟩) (sub b a) = 0 := by
      rw [normalize, if_neg hpm]
      simp only [dot]
      have hr : -(sub b a).y / mag ⟨-(sub b a).y, (sub b a).x⟩ * (sub b a).x
          + (sub b a).x / mag ⟨-(sub b a).y, (sub b a).x⟩ * (sub b a).y
          = (-(sub b a).y * (sub b a).x + (sub b a).x * (sub b a).y)
            / mag ⟨-(sub b a).y, (sub b a).x⟩ := by ring
      rw [hr,
        show -(sub b a).y * (sub b a).x + (sub b a).x * (sub b a).y = 0 from by ring,
        zero_div]
    refine ⟨hnormal, ?_, ?_⟩
    · rw [hnormal]
      exact hdot
    · rw [hnormal]
      exact dot_normalize_self _ hpm
  · intro px py ax ay
    constructor
    · simp [jsDistPointToSegment, jsVSub, jsVAdd, jsVDot, jsVMult, jsVMag, jsSub, jsNeg,
        jsAdd, jsMul, jsDiv, jsSqrt, jsMin, jsMax, jsEqNum]
    · simp [jsDistPointToSegment, jsVSub, jsVAdd, jsVDot, jsVMult, jsVMag, jsSub, jsNeg,
        jsAdd, jsMul, jsDiv, jsSqrt, jsMin, jsMax, jsEqNum]

theorem normalize_guard_and_degenerate_projection_witness :
    mag (sub ⟨0, 0⟩ (closestPoint ⟨0, 0⟩ ⟨-10, 0⟩ ⟨10, 0⟩)) = 0
    ∧ (distPointToSegment ⟨0, 0⟩ ⟨-10, 0⟩ ⟨10, 0⟩).normal = ⟨0, 1⟩
    ∧ dot (distPointToSegment ⟨0, 0⟩ ⟨-10, 0⟩ ⟨10, 0⟩).normal (sub ⟨10, 0⟩ ⟨-10, 0⟩) = 0
    ∧ dot (distPointToSegment ⟨0, 0⟩ ⟨-10, 0⟩ ⟨10, 0⟩).normal
        (distPointToSegment ⟨0, 0⟩ ⟨-10, 0⟩ ⟨10, 0⟩).normal = 1 := by
  have hc : closestPoint ⟨0, 0⟩ ⟨-10, 0⟩ ⟨10, 0⟩ = ⟨0, 0⟩ := by
    rw [closestPoint]
    simp only [sub, dot, mult, add]
    norm_num
  have h0 : mag (sub ⟨0, 0⟩ (closestPoint ⟨0, 0⟩ ⟨-10, 0⟩ ⟨10, 0⟩)) = 0 := by
    rw [hc, show sub (⟨0, 0⟩ : Vector2) ⟨0, 0⟩ = ⟨0, 0⟩ from by ext <;> simp [sub]]
    exact mag_eq_of_sq _ 0 (by norm_num) (by norm_num)
  have hedge : mag (sub (⟨10, 0⟩ : Vector2) ⟨-10, 0⟩) ≠ 0 := by
    rw [show sub (⟨10, 0⟩ : Vector2) ⟨-10, 0⟩ = ⟨20, 0⟩ from by ext <;> norm_num [sub],
      show mag (⟨20, 0⟩ : Vector2) = 20 from mag_eq_of_sq _ 20 (by norm_num) (by norm_num)]
    norm_num
  have h := normalize_guard_and_degenerate_projection.2.1 ⟨0, 0⟩ ⟨-10, 0⟩ ⟨10, 0⟩ h0 hedge
  refine ⟨h0, ?_, h.2.1, h.2.2⟩
  rw [h.1]
  rw [show (⟨-(sub (⟨10, 0⟩ : Vector2) ⟨-10, 0⟩).y, (sub (⟨10, 0⟩ : Vector2) ⟨-10, 0⟩).x⟩ :
      Vector2) = ⟨0, 20⟩ from by ext <;> norm_num [sub]]
  have hm20 : mag (⟨0, 20⟩ : Vector2) = 20 :=
    mag_eq_of_sq _ 20 (by norm_num) (by norm_num)
  rw [normalize, if_neg (by rw [hm20]; norm_num), hm20]
  ext <;> norm_num

end Shapes
